import Mathlib

/-!
Shallow embedding of the tsickle-loader core (src/index.ts).

The loader is a synchronous pipeline: option-schema validation, extern
directory creation, tsconfig loading, program construction, a diagnostic
gate, a whole-program tsickle emit, selection of the one output entry
relevant to the processed file, and post-processing of the selected code
and of its extern fragment.  External collaborators (the filesystem, the
TypeScript compiler, the tsickle transform, the two fixers from the
fix-output module that is not part of the sources at hand) are modelled as
an environment record; observable side effects (directory creation, extern
appends, emitError and emitWarning callbacks) are collected in a trace.
-/

namespace TsickleLoader

/-- Diagnostic severity, as in the DiagnosticSet data model. -/
inductive Severity where
  | error
  | warning
deriving DecidableEq

/-- A diagnostic record: severity plus message. -/
structure Diagnostic where
  severity : Severity
  message : String
deriving DecidableEq

/-- Default extern directory, DEFAULT_EXTERN_DIR in src/index.ts. -/
def DEFAULT_EXTERN_DIR : String := "dist/externs"

/-- Externs file name, EXTERNS_FILE_NAME in src/index.ts. -/
def EXTERNS_FILE_NAME : String := "externs.js"

/-- Default config file, DEFAULT_CONFIG_FILE in src/index.ts. -/
def DEFAULT_CONFIG_FILE : String := "tsconfig.json"

/-- A host-supplied option value: a string, or some value of another
JSON type (which the schema rejects, both fields being string-typed). -/
inductive OptValue where
  | str (s : String)
  | other
deriving DecidableEq

/-- The raw options object handed to getOptions: two optional fields. -/
structure RawOptions where
  tsconfig : Option OptValue
  externDir : Option OptValue
deriving DecidableEq

/-- An absent field or a string field passes the schema. -/
def validOptField : Option OptValue → Bool
  | none => true
  | some (OptValue.str _) => true
  | some OptValue.other => false

/-- The schema-utils validate call on optionsSchema: both fields are
optional and must be strings when present. -/
def validateOptions (o : RawOptions) : Bool :=
  validOptField o.tsconfig && validOptField o.externDir

/-- Extract the string of a present string-valued option field. -/
def optStr : Option OptValue → Option String
  | some (OptValue.str s) => some s
  | _ => none

/-- Substring containment on char lists: the JS test
hay.indexOf(needle) !== -1 used on line 151 of src/index.ts. -/
def containsSub : List Char → List Char → Bool
  | [], needle => needle.isPrefixOf []
  | c :: t, needle => needle.isPrefixOf (c :: t) || containsSub t needle

/-- Substring containment on strings. -/
def strContains (hay needle : String) : Bool :=
  containsSub hay.data needle.data

/-- Boolean test that ext is a suffix of p. -/
def endsWithExt (p ext : String) : Bool :=
  ext.data.isSuffixOf p.data

/-- Swap a trailing extension fromExt for toExt; paths without the
trailing fromExt are left unchanged. -/
def swapExt (fromExt toExt p : String) : String :=
  if endsWithExt p fromExt then
    String.mk (p.data.take (p.data.length - fromExt.data.length) ++ toExt.data)
  else p

/-- The source extension of the source path space. -/
def SOURCE_EXT : String := ".ts"

/-- The emission extension of the emitted path space. -/
def EMIT_EXT : String := ".js"

/-- Modelled from the spec: the path-utils module (tsToJS) is not among
the sources at hand; spec section 3 describes the mapping as a pure,
invertible path-extension mapping that swaps a source extension for an
emission extension, exact and symmetric with its inverse. -/
def tsToJS (p : String) : String := swapExt SOURCE_EXT EMIT_EXT p

/-- Modelled from the spec: the path-utils module (jsToTS) is not among
the sources at hand; the inverse direction of the same extension swap. -/
def jsToTS (p : String) : String := swapExt EMIT_EXT SOURCE_EXT p

/-- Observable side effects of one invocation, in order. -/
inductive Effect where
  | ensureDir (dir : String)
  | appendExternFile (file : String) (content : String)
  | emitError (msg : String)
  | emitWarning (msg : String)
deriving DecidableEq

/-- The external world of one invocation: whether the tsconfig file loads
and parses, the pre-emit diagnostics of the constructed program, the
warnings tsickle routes through logWarning during emit, the write-file
sink contents (jsFiles, in insertion order), the externs map returned by
the emit, and the two fixers from the fix-output module (not among the
sources at hand, kept abstract). -/
structure Env where
  configOk : Bool
  preEmitDiagnostics : List Diagnostic
  transformWarnings : List Diagnostic
  jsFiles : List (String × String)
  externs : List (String × String)
  fixCode : String → String
  fixExternText : String → String

/-- The loader context: the resource path and the raw options
(the emitError and emitWarning callbacks are recorded in the trace). -/
structure LoaderCTX where
  resourcePath : String
  options : RawOptions

/-- Label used by the diagnostic formatter model. -/
def severityLabel : Severity → String
  | Severity.error => "error"
  | Severity.warning => "warning"

/-- Model of the rendering of one diagnostic by the external formatter
ts.formatDiagnosticsWithColorAndContext: severity, message, newline. -/
def formatDiagnostic (d : Diagnostic) : String :=
  severityLabel d.severity ++ ": " ++ d.message ++ "\n"

/-- Model of ts.formatDiagnosticsWithColorAndContext over a whole list:
the concatenation of the renderings of its members. -/
def formatDiagnostics : List Diagnostic → String
  | [] => ""
  | d :: ds => formatDiagnostic d ++ formatDiagnostics ds

/-- Path normalization of line 108 of src/index.ts: backslashes become
forward slashes. -/
def normalizePath (p : String) : String :=
  String.mk (p.data.map (fun c => if c = '\\' then '/' else c))

/-- Errors thrown by setup before the pipeline proper starts. -/
inductive SetupError where
  | schemaError
  | configError
deriving DecidableEq

/-- The resolved data produced by setup. -/
structure SetupResult where
  tsconfig : String
  externDir : String
  externFile : String
deriving DecidableEq

/-- The extern directory after defaulting. -/
def resolvedExternDir (o : RawOptions) : String :=
  (optStr o.externDir).getD DEFAULT_EXTERN_DIR

/-- path.resolve(externDir, EXTERNS_FILE_NAME), modelled as joining with
a slash. -/
def resolvedExternFile (o : RawOptions) : String :=
  resolvedExternDir o ++ "/" ++ EXTERNS_FILE_NAME

/-- The tsconfig path after defaulting. -/
def resolvedTsconfig (o : RawOptions) : String :=
  (optStr o.tsconfig).getD DEFAULT_CONFIG_FILE

/-- The setup function of src/index.ts lines 38 to 73: validate the
options against the schema (throwing on violation), resolve the extern
directory and file, create the extern directory, resolve the tsconfig
path and load it (a malformed config propagates as a thrown parse
error).  Returns the effect trace of setup together with its result. -/
def setup (o : RawOptions) (env : Env) : List Effect × Except SetupError SetupResult :=
  if validateOptions o then
    if env.configOk then
      ([Effect.ensureDir (resolvedExternDir o)],
        Except.ok ⟨resolvedTsconfig o, resolvedExternDir o, resolvedExternFile o⟩)
    else
      ([Effect.ensureDir (resolvedExternDir o)], Except.error SetupError.configError)
  else
    ([], Except.error SetupError.schemaError)

/-- The skip policy of the tsickle host, src/index.ts lines 125 to 126:
a file is processed only when its path equals the normalized source file
name. -/
def shouldSkipTsickleProcessing (sourceFileName fileName : String) : Bool :=
  sourceFileName != fileName

/-- The output selection loop of src/index.ts lines 150 to 153: the
first entry of jsFiles, in iteration order, whose key occurs as a
substring of the expected emitted path sourceFileAsJs. -/
def selectOutput (sourceFileAsJs : String) (jsFiles : List (String × String)) :
    Option (String × String) :=
  jsFiles.find? (fun kv => strContains sourceFileAsJs kv.1)

/-- The message of the missing-output error, src/index.ts lines 167
to 169. -/
def missingMessage (sourceFileName : String) : String :=
  "missing compiled result for source file: " ++ sourceFileName

/-- The outcome of one invocation: the ordered effect trace, the value
returned to the host (none when the loader returns without a value), and
the setup error thrown, if any. -/
structure RunResult where
  effects : List Effect
  returned : Option String
  thrown : Option SetupError
deriving Inhabited

/-- The emitWarning effects produced when tsickle routes warnings through
the logWarning callback of the host during emit, one call per warning,
each formatted on its own (src/index.ts lines 138 to 139). -/
def warnEffects (env : Env) : List Effect :=
  env.transformWarnings.map (fun w => Effect.emitWarning (formatDiagnostics [w]))

/-- The extern append effects for the selected output entry with key
jsPath: the externs map is consulted at the source-space path jsToTS
jsPath, and a present fragment is appended, after fixing, to the extern
file (src/index.ts lines 155 to 160). -/
def externEffects (env : Env) (externFile jsPath : String) : List Effect :=
  match List.lookup (jsToTS jsPath) env.externs with
  | some e => [Effect.appendExternFile externFile (env.fixExternText e)]
  | none => []

/-- The tsickle loader, src/index.ts lines 101 to 170: setup, path
normalization, program construction, the diagnostic gate (any non-empty
pre-emit diagnostic list is reported as one formatted error and ends the
invocation), the tsickle emit (whose logWarning forwards each warning
individually), selection of the first jsFiles entry whose key occurs in
the expected emitted path, the extern append for the selected entry when
the externs map has its source-space path, and the fixed code as return
value; when no entry matches, an error naming the source file.  The
source text argument is the second loader parameter. -/
def runLoader (env : Env) (ctx : LoaderCTX) (source : String) : RunResult :=
  match setup ctx.options env with
  | (setupEffs, Except.error e) => ⟨setupEffs, none, some e⟩
  | (setupEffs, Except.ok su) =>
    let sourceFileName := normalizePath ctx.resourcePath
    let diagnostics := env.preEmitDiagnostics
    if diagnostics.length > 0 then
      ⟨setupEffs ++ [Effect.emitError (formatDiagnostics diagnostics)], none, none⟩
    else
      let sourceFileAsJs := tsToJS sourceFileName
      match selectOutput sourceFileAsJs env.jsFiles with
      | some kv =>
        ⟨setupEffs ++ warnEffects env ++ externEffects env su.externFile kv.1,
          some (env.fixCode kv.2), none⟩
      | none =>
        ⟨setupEffs ++ warnEffects env ++ [Effect.emitError (missingMessage sourceFileName)],
          none, none⟩

/-- Appending strings appends their character data. -/
theorem data_append (s t : String) : (s ++ t).data = s.data ++ t.data := by
  cases s
  cases t
  rfl

/-- String.mk is a left inverse of the data projection. -/
theorem mk_data (s : String) : String.mk s.data = s := by
  cases s
  rfl

/-- containsSub decides the infix relation. -/
theorem containsSub_iff (hay needle : List Char) :
    containsSub hay needle = true ↔ needle <:+: hay := by
  induction hay with
  | nil =>
    simp [containsSub]
  | cons c t ih =>
    simp [containsSub, ih, List.infix_cons_iff]

/-- strContains decides the infix relation on character data. -/
theorem strContains_iff (hay needle : String) :
    strContains hay needle = true ↔ needle.data <:+: hay.data := by
  simp [strContains, containsSub_iff]

/-- endsWithExt decides the suffix relation on character data. -/
theorem endsWithExt_iff (p ext : String) :
    endsWithExt p ext = true ↔ ext.data <:+ p.data := by
  simp [endsWithExt]

/-- Swapping an extension and swapping back is the identity on paths
carrying that extension. -/
theorem swapExt_swapExt (fromExt toExt p : String)
    (h : endsWithExt p fromExt = true) :
    swapExt toExt fromExt (swapExt fromExt toExt p) = p := by
  rw [endsWithExt_iff] at h
  obtain ⟨q, hq⟩ := h
  have hdata : p.data = q ++ fromExt.data := hq.symm
  have htake : p.data.take (p.data.length - fromExt.data.length) = q := by
    rw [hdata, List.length_append, Nat.add_sub_cancel]
    exact List.take_left' rfl
  have hfirst : swapExt fromExt toExt p = String.mk (q ++ toExt.data) := by
    rw [swapExt, if_pos]
    · rw [htake]
    · rw [endsWithExt_iff, hdata]
      exact List.suffix_append q fromExt.data
  rw [hfirst, swapExt, if_pos]
  · have htake2 : (String.mk (q ++ toExt.data)).data.take
        ((String.mk (q ++ toExt.data)).data.length - toExt.data.length) = q := by
      show (q ++ toExt.data).take ((q ++ toExt.data).length - toExt.data.length) = q
      rw [List.length_append, Nat.add_sub_cancel]
      exact List.take_left' rfl
    rw [htake2, ← hdata, mk_data]
  · rw [endsWithExt_iff]
    exact List.suffix_append q toExt.data

/-- setup on schema-valid options with a loadable config. -/
theorem setup_ok_eq (o : RawOptions) (env : Env) (hv : validateOptions o = true)
    (hc : env.configOk = true) :
    setup o env = ([Effect.ensureDir (resolvedExternDir o)],
      Except.ok ⟨resolvedTsconfig o, resolvedExternDir o, resolvedExternFile o⟩) := by
  simp [setup, hv, hc]

/-- setup on schema-valid options whose config fails to load. -/
theorem setup_configError_eq (o : RawOptions) (env : Env) (hv : validateOptions o = true)
    (hc : env.configOk = false) :
    setup o env = ([Effect.ensureDir (resolvedExternDir o)],
      Except.error SetupError.configError) := by
  simp [setup, hv, hc]

/-- setup on schema-invalid options. -/
theorem setup_schemaError_eq (o : RawOptions) (env : Env) (hv : validateOptions o = false) :
    setup o env = ([], Except.error SetupError.schemaError) := by
  simp [setup, hv]

/-- The run when setup throws a schema error. -/
theorem runLoader_schemaError (env : Env) (ctx : LoaderCTX) (source : String)
    (hv : validateOptions ctx.options = false) :
    runLoader env ctx source = ⟨[], none, some SetupError.schemaError⟩ := by
  unfold runLoader
  rw [setup_schemaError_eq ctx.options env hv]

/-- The run when setup throws a config error. -/
theorem runLoader_configError (env : Env) (ctx : LoaderCTX) (source : String)
    (hv : validateOptions ctx.options = true) (hc : env.configOk = false) :
    runLoader env ctx source = ⟨[Effect.ensureDir (resolvedExternDir ctx.options)],
      none, some SetupError.configError⟩ := by
  unfold runLoader
  rw [setup_configError_eq ctx.options env hv hc]

/-- The run when the diagnostic gate fires. -/
theorem runLoader_gate (env : Env) (ctx : LoaderCTX) (source : String)
    (hv : validateOptions ctx.options = true) (hc : env.configOk = true)
    (hd : env.preEmitDiagnostics ≠ []) :
    runLoader env ctx source = ⟨[Effect.ensureDir (resolvedExternDir ctx.options),
      Effect.emitError (formatDiagnostics env.preEmitDiagnostics)], none, none⟩ := by
  unfold runLoader
  rw [setup_ok_eq ctx.options env hv hc]
  simp [List.length_pos, hd]

/-- The run when the gate passes and an output entry is selected. -/
theorem runLoader_selected (env : Env) (ctx : LoaderCTX) (source : String)
    (kv : String × String)
    (hv : validateOptions ctx.options = true) (hc : env.configOk = true)
    (hd : env.preEmitDiagnostics = [])
    (hf : selectOutput (tsToJS (normalizePath ctx.resourcePath)) env.jsFiles = some kv) :
    runLoader env ctx source = ⟨Effect.ensureDir (resolvedExternDir ctx.options) ::
      (warnEffects env ++ externEffects env (resolvedExternFile ctx.options) kv.1),
      some (env.fixCode kv.2), none⟩ := by
  unfold runLoader
  rw [setup_ok_eq ctx.options env hv hc]
  simp [hd, hf]

/-- The run when the gate passes and no output entry matches. -/
theorem runLoader_missing (env : Env) (ctx : LoaderCTX) (source : String)
    (hv : validateOptions ctx.options = true) (hc : env.configOk = true)
    (hd : env.preEmitDiagnostics = [])
    (hf : selectOutput (tsToJS (normalizePath ctx.resourcePath)) env.jsFiles = none) :
    runLoader env ctx source = ⟨Effect.ensureDir (resolvedExternDir ctx.options) ::
      (warnEffects env ++ [Effect.emitError (missingMessage (normalizePath ctx.resourcePath))]),
      none, none⟩ := by
  unfold runLoader
  rw [setup_ok_eq ctx.options env hv hc]
  simp [hd, hf]

/-- The selection scan returns the first entry, in iteration order, whose
key passes the containment test. -/
theorem selectOutput_first (s : String) (pre post : List (String × String))
    (kv : String × String)
    (hpre : ∀ e ∈ pre, strContains s e.1 = false)
    (hkv : strContains s kv.1 = true) :
    selectOutput s (pre ++ kv :: post) = some kv := by
  induction pre with
  | nil =>
    simp only [List.nil_append, selectOutput]
    exact List.find?_cons_of_pos post hkv
  | cons a t ih =>
    have ha : strContains s a.1 = false := hpre a (List.mem_cons_self a t)
    have ht : ∀ e ∈ t, strContains s e.1 = false :=
      fun e he => hpre e (List.mem_cons_of_mem a he)
    simp only [List.cons_append, selectOutput]
    rw [List.find?_cons_of_neg _ (by simp [ha])]
    exact ih ht

/-- Each message of the list occurs inside the formatted rendering of the
whole list. -/
theorem message_in_formatDiagnostics (d : Diagnostic) (ds : List Diagnostic)
    (h : d ∈ ds) :
    strContains (formatDiagnostics ds) d.message = true := by
  rw [strContains_iff]
  induction ds with
  | nil => cases h
  | cons a t ih =>
    rcases List.mem_cons.mp h with h1 | h2
    · subst h1
      refine ⟨(severityLabel d.severity).data ++ ": ".data,
        "\n".data ++ (formatDiagnostics t).data, ?_⟩
      simp [formatDiagnostics, formatDiagnostic, data_append]
    · exact List.IsInfix.trans (ih h2) (by
        rw [formatDiagnostics, data_append]
        exact (List.suffix_append _ _).isInfix)

/-- C6: for every source path ending in the source extension, translating
it to emission space with tsToJS and back with jsToTS yields the path
unchanged. -/
theorem extension_roundtrip (p : String) (h : endsWithExt p SOURCE_EXT = true) :
    jsToTS (tsToJS p) = p :=
  swapExt_swapExt SOURCE_EXT EMIT_EXT p h

/-- Witness for C6 at the concrete path /root/workspace/a.ts. -/
theorem extension_roundtrip_witness :
    endsWithExt "/root/workspace/a.ts" SOURCE_EXT = true ∧
    jsToTS (tsToJS "/root/workspace/a.ts") = "/root/workspace/a.ts" :=
  ⟨by decide, extension_roundtrip "/root/workspace/a.ts" (by decide)⟩

/-- C8: the skip policy of the transformer adapter is exact path
equality: a file is skipped exactly when its path differs from the
normalized source file path. -/
theorem shouldSkip_iff_ne (sourceFileName fileName : String) :
    shouldSkipTsickleProcessing sourceFileName fileName = true ↔
      ¬ (fileName = sourceFileName) := by
  constructor
  · intro h heq
    rw [heq, shouldSkipTsickleProcessing, bne_self_eq_false] at h
    cases h
  · intro h
    rw [shouldSkipTsickleProcessing, bne_iff_ne]
    exact fun heq => h heq.symm

/-- Witness for C8 at two concrete distinct paths. -/
theorem shouldSkip_iff_ne_witness :
    shouldSkipTsickleProcessing "src/a.ts" "src/b.ts" = true :=
  (shouldSkip_iff_ne "src/a.ts" "src/b.ts").mpr (by decide)

/-- C9: two invocations agreeing on the environment and the context but
differing in the source text argument behave identically: the loader
never reads the source text. -/
theorem source_text_irrelevant (env : Env) (ctx : LoaderCTX) (s1 s2 : String) :
    runLoader env ctx s1 = runLoader env ctx s2 := rfl

/-- C10: whenever the options pass schema validation, the very first
effect of the invocation is the recursive creation of the extern
directory, before any diagnostic reporting, whatever the rest of the run
does (including diagnostic aborts and missing-output errors). -/
theorem externDir_created_first (env : Env) (ctx : LoaderCTX) (source : String)
    (hv : validateOptions ctx.options = true) :
    (runLoader env ctx source).effects.head? =
      some (Effect.ensureDir (resolvedExternDir ctx.options)) := by
  by_cases hc : env.configOk = true
  · by_cases hd : env.preEmitDiagnostics = []
    · cases hf : selectOutput (tsToJS (normalizePath ctx.resourcePath)) env.jsFiles with
      | some kv =>
        rw [runLoader_selected env ctx source kv hv hc hd hf]
        rfl
      | none =>
        rw [runLoader_missing env ctx source hv hc hd hf]
        rfl
    · rw [runLoader_gate env ctx source hv hc hd]
      rfl
  · rw [runLoader_configError env ctx source hv (by simpa using hc)]
    rfl

/-- Witness for C10 on an invocation that aborts at the diagnostic
gate. -/
theorem externDir_created_first_witness :
    (runLoader ⟨true, [⟨Severity.error, "boom"⟩], [], [], [], id, id⟩
        ⟨"a.ts", ⟨none, none⟩⟩ "x").effects.head? =
      some (Effect.ensureDir (resolvedExternDir ⟨none, none⟩)) :=
  externDir_created_first ⟨true, [⟨Severity.error, "boom"⟩], [], [], [], id, id⟩
    ⟨"a.ts", ⟨none, none⟩⟩ "x" (by decide)

/-- Concrete environment refuting the claimed containment direction of
the output selector: the single jsFiles key strictly contains the
expected emitted path. -/
def envC1x : Env := ⟨true, [], [], [("xa.js", "CODEX")], [], id, id⟩

/-- Concrete context for the output selector counterexample. -/
def ctxC1x : LoaderCTX := ⟨"a.ts", ⟨none, none⟩⟩

/-- Counterexample to C1 as stated: the only codeByPath key, xa.js,
contains the expected emitted path a.js as a substring, so under the
claim the entry would be selected and its text returned; the code tests
containment the other way around, finds no match, reports the
missing-output error and returns no text. -/
theorem output_selector_counterexample :
    strContains "xa.js" (tsToJS (normalizePath ctxC1x.resourcePath)) = true ∧
    envC1x.jsFiles = [("xa.js", "CODEX")] ∧
    (runLoader envC1x ctxC1x "src").returned = none ∧
    Effect.emitError (missingMessage (normalizePath ctxC1x.resourcePath)) ∈
      (runLoader envC1x ctxC1x "src").effects := by
  refine ⟨by decide, rfl, ?_, ?_⟩
  · decide
  · decide

/-- C1 (amended): the Output Selector computes the expected emitted path
by swapping the source extension for the emission extension and selects
the first codeByPath entry, in iteration order, whose key is contained in
this expected path as a substring (not the reverse containment); the
selected entry text, after fixing, is what the pipeline returns. -/
theorem output_selector_first_contained_key (env : Env) (ctx : LoaderCTX)
    (source : String) (pre post : List (String × String)) (kv : String × String)
    (hv : validateOptions ctx.options = true) (hc : env.configOk = true)
    (hd : env.preEmitDiagnostics = [])
    (hsplit : env.jsFiles = pre ++ kv :: post)
    (hpre : ∀ e ∈ pre, strContains (tsToJS (normalizePath ctx.resourcePath)) e.1 = false)
    (hkv : strContains (tsToJS (normalizePath ctx.resourcePath)) kv.1 = true) :
    (runLoader env ctx source).returned = some (env.fixCode kv.2) := by
  have hf : selectOutput (tsToJS (normalizePath ctx.resourcePath)) env.jsFiles = some kv := by
    rw [hsplit]
    exact selectOutput_first _ pre post kv hpre hkv
  rw [runLoader_selected env ctx source kv hv hc hd hf]

/-- Concrete environment for the amended selector claim: one early entry
whose key does not occur in the expected path, then the matching entry. -/
def envC1w : Env :=
  ⟨true, [], [], [("other.js", "NO"), ("a.js", "CODE")], [],
    fun s => "fixed " ++ s, id⟩

/-- Concrete context for the amended selector claim. -/
def ctxC1w : LoaderCTX := ⟨"dir/a.ts", ⟨none, none⟩⟩

/-- Witness for the amended C1: the second entry is the first whose key
a.js occurs inside the expected path dir/a.js, and its fixed text is
returned. -/
theorem output_selector_first_contained_key_witness :
    (runLoader envC1w ctxC1w "x").returned = some (envC1w.fixCode "CODE") :=
  output_selector_first_contained_key envC1w ctxC1w "x" [("other.js", "NO")]
    [] ("a.js", "CODE") (by decide) rfl rfl rfl (by decide) (by decide)

/-- C3: keeps only the emitError effects of a trace. -/
def isEmitErrorEff : Effect → Bool
  | Effect.emitError _ => true
  | _ => false

/-- C3: when the diagnostic set holds at least one error-severity
diagnostic, the pipeline performs exactly one emitError call, whose
single formatted message contains every diagnostic of the set, and
returns no code text. -/
theorem errors_reported_once (env : Env) (ctx : LoaderCTX) (source : String)
    (hv : validateOptions ctx.options = true) (hc : env.configOk = true)
    (he : ∃ d ∈ env.preEmitDiagnostics, d.severity = Severity.error) :
    (runLoader env ctx source).effects.filter isEmitErrorEff =
      [Effect.emitError (formatDiagnostics env.preEmitDiagnostics)] ∧
    (∀ d ∈ env.preEmitDiagnostics,
      strContains (formatDiagnostics env.preEmitDiagnostics) d.message = true) ∧
    (runLoader env ctx source).returned = none := by
  obtain ⟨d0, hd0, _⟩ := he
  have hne : env.preEmitDiagnostics ≠ [] := by
    intro h
    rw [h] at hd0
    cases hd0
  rw [runLoader_gate env ctx source hv hc hne]
  refine ⟨?_, ?_, rfl⟩
  · simp [List.filter, isEmitErrorEff]
  · intro d hd
    exact message_in_formatDiagnostics d _ hd

/-- Concrete environment for C3: one error diagnostic besides a
warning. -/
def envC3w : Env :=
  ⟨true, [⟨Severity.warning, "unused name"⟩, ⟨Severity.error, "type mismatch"⟩],
    [], [("a.js", "CODE")], [], id, id⟩

/-- Concrete context for C3. -/
def ctxC3w : LoaderCTX := ⟨"a.ts", ⟨none, none⟩⟩

/-- Witness for C3 on a concrete two-diagnostic set holding one
error. -/
theorem errors_reported_once_witness :
    (runLoader envC3w ctxC3w "x").effects.filter isEmitErrorEff =
      [Effect.emitError (formatDiagnostics envC3w.preEmitDiagnostics)] ∧
    (∀ d ∈ envC3w.preEmitDiagnostics,
      strContains (formatDiagnostics envC3w.preEmitDiagnostics) d.message = true) ∧
    (runLoader envC3w ctxC3w "x").returned = none :=
  errors_reported_once envC3w ctxC3w "x" (by decide) rfl (by decide)

/-- C4: when no codeByPath entry matches the target file, the pipeline
calls emitError with a message naming the source file path and returns no
code text. -/
theorem missing_output_reports_path (env : Env) (ctx : LoaderCTX) (source : String)
    (hv : validateOptions ctx.options = true) (hc : env.configOk = true)
    (hd : env.preEmitDiagnostics = [])
    (hf : selectOutput (tsToJS (normalizePath ctx.resourcePath)) env.jsFiles = none) :
    (runLoader env ctx source).returned = none ∧
    Effect.emitError (missingMessage (normalizePath ctx.resourcePath)) ∈
      (runLoader env ctx source).effects ∧
    strContains (missingMessage (normalizePath ctx.resourcePath))
      (normalizePath ctx.resourcePath) = true := by
  rw [runLoader_missing env ctx source hv hc hd hf]
  refine ⟨rfl, ?_, ?_⟩
  · exact List.mem_cons_of_mem _ (List.mem_append_right _ (List.mem_cons_self _ _))
  · rw [strContains_iff, missingMessage, data_append]
    exact (List.suffix_append _ _).isInfix

/-- Concrete environment for C4: the only key does not occur in the
expected path. -/
def envC4w : Env := ⟨true, [], [], [("b.js", "OTHER")], [], id, id⟩

/-- Concrete context for C4. -/
def ctxC4w : LoaderCTX := ⟨"a.ts", ⟨none, none⟩⟩

/-- Witness for C4 on a concrete invocation with no matching entry. -/
theorem missing_output_reports_path_witness :
    (runLoader envC4w ctxC4w "x").returned = none ∧
    Effect.emitError (missingMessage (normalizePath ctxC4w.resourcePath)) ∈
      (runLoader envC4w ctxC4w "x").effects ∧
    strContains (missingMessage (normalizePath ctxC4w.resourcePath))
      (normalizePath ctxC4w.resourcePath) = true :=
  missing_output_reports_path envC4w ctxC4w "x" (by decide) rfl rfl (by decide)

/-- Concrete environment refuting C2 as stated: the pre-emit diagnostic
set holds a single warning-severity diagnostic and nothing else, and the
transform would have output for the file. -/
def envC2x : Env :=
  ⟨true, [⟨Severity.warning, "unused name"⟩], [], [("a.js", "CODE")], [], id, id⟩

/-- Concrete context for the diagnostic gate counterexample. -/
def ctxC2x : LoaderCTX := ⟨"a.ts", ⟨none, none⟩⟩

/-- Counterexample to C2 as stated: with a diagnostic set containing only
a warning-severity diagnostic, the claim says the pipeline does not abort
and forwards the warnings; the code tests only non-emptiness of the set,
reports the whole set through emitError and produces no output. -/
theorem diagnostic_gate_counterexample :
    (∀ d ∈ envC2x.preEmitDiagnostics, d.severity ≠ Severity.error) ∧
    (runLoader envC2x ctxC2x "src").returned = none ∧
    Effect.emitError (formatDiagnostics envC2x.preEmitDiagnostics) ∈
      (runLoader envC2x ctxC2x "src").effects := by
  refine ⟨by decide, ?_, ?_⟩
  · decide
  · decide

/-- C2 (amended): the pipeline aborts at the diagnostic gate, reporting
the whole formatted set through the error channel and producing no
output, exactly when the pre-emission diagnostic set is non-empty,
regardless of severity: a set containing only warning-severity
diagnostics aborts as well. -/
theorem diagnostic_gate_aborts_iff (env : Env) (ctx : LoaderCTX) (source : String)
    (hv : validateOptions ctx.options = true) (hc : env.configOk = true) :
    ((runLoader env ctx source).returned = none ∧
     (runLoader env ctx source).effects =
       [Effect.ensureDir (resolvedExternDir ctx.options),
        Effect.emitError (formatDiagnostics env.preEmitDiagnostics)]) ↔
    env.preEmitDiagnostics ≠ [] := by
  constructor
  · intro h hd
    cases hf : selectOutput (tsToJS (normalizePath ctx.resourcePath)) env.jsFiles with
    | some kv =>
      rw [runLoader_selected env ctx source kv hv hc hd hf] at h
      simp at h
    | none =>
      rw [runLoader_missing env ctx source hv hc hd hf] at h
      obtain ⟨h1, h2⟩ := h
      rw [hd] at h2
      simp only [List.cons.injEq, true_and] at h2
      have hlen := congrArg List.length h2
      simp only [List.length_append, List.length_cons, List.length_nil] at hlen
      have hw : warnEffects env = [] := by
        have : (warnEffects env).length = 0 := by omega
        exact List.length_eq_zero.mp this
      rw [hw, List.nil_append] at h2
      simp only [List.cons.injEq, Effect.emitError.injEq, and_true] at h2
      have hlen2 := congrArg String.length h2
      rw [missingMessage, String.length_append] at hlen2
      have hpos : 0 < ("missing compiled result for source file: " : String).length := by
        decide
      rw [formatDiagnostics] at hlen2
      have hzero : ("" : String).length = 0 := rfl
      omega
  · intro hd
    rw [runLoader_gate env ctx source hv hc hd]
    exact ⟨rfl, rfl⟩

/-- Witness for the amended C2 on the warning-only environment of the
counterexample. -/
theorem diagnostic_gate_aborts_iff_witness :
    (runLoader envC2x ctxC2x "x").returned = none ∧
    (runLoader envC2x ctxC2x "x").effects =
      [Effect.ensureDir (resolvedExternDir ctxC2x.options),
       Effect.emitError (formatDiagnostics envC2x.preEmitDiagnostics)] :=
  (diagnostic_gate_aborts_iff envC2x ctxC2x "x" (by decide) rfl).mpr (by decide)

/-- C5: an append to the extern file happens only with content produced
by the extern fixer from the fragment the transform yielded for the
selected file, and only on runs where schema validation, config loading
and the diagnostic gate all passed and the selector matched; in
particular any upstream failure (schema error, config error, diagnostic
abort) implies no append occurred. -/
theorem extern_append_guarded (env : Env) (ctx : LoaderCTX) (source : String) :
    (∀ f c, Effect.appendExternFile f c ∈ (runLoader env ctx source).effects →
      validateOptions ctx.options = true ∧ env.configOk = true ∧
      env.preEmitDiagnostics = [] ∧ f = resolvedExternFile ctx.options ∧
      ∃ kv, selectOutput (tsToJS (normalizePath ctx.resourcePath)) env.jsFiles = some kv ∧
        ∃ e, List.lookup (jsToTS kv.1) env.externs = some e ∧
          c = env.fixExternText e) ∧
    ((validateOptions ctx.options = false ∨ env.configOk = false ∨
        env.preEmitDiagnostics ≠ []) →
      ∀ f c, Effect.appendExternFile f c ∉ (runLoader env ctx source).effects) := by
  have main : ∀ f c, Effect.appendExternFile f c ∈ (runLoader env ctx source).effects →
      validateOptions ctx.options = true ∧ env.configOk = true ∧
      env.preEmitDiagnostics = [] ∧ f = resolvedExternFile ctx.options ∧
      ∃ kv, selectOutput (tsToJS (normalizePath ctx.resourcePath)) env.jsFiles = some kv ∧
        ∃ e, List.lookup (jsToTS kv.1) env.externs = some e ∧
          c = env.fixExternText e := by
    intro f c hmem
    by_cases hv : validateOptions ctx.options = true
    · by_cases hc : env.configOk = true
      · by_cases hd : env.preEmitDiagnostics = []
        · cases hf : selectOutput (tsToJS (normalizePath ctx.resourcePath)) env.jsFiles with
          | some kv =>
            rw [runLoader_selected env ctx source kv hv hc hd hf] at hmem
            cases hlk : List.lookup (jsToTS kv.1) env.externs with
            | some e =>
              simp only [externEffects, hlk, warnEffects, List.mem_cons,
                List.mem_append, List.mem_map, List.mem_singleton,
                Effect.appendExternFile.injEq] at hmem
              rcases hmem with h | ⟨w, hw1, hw2⟩ | ⟨h1, h2⟩ | h
              · cases h
              · cases hw2
              · exact ⟨hv, hc, hd, h1, kv, rfl, e, hlk, h2⟩
              · cases h
            | none =>
              simp [externEffects, hlk, warnEffects] at hmem
          | none =>
            rw [runLoader_missing env ctx source hv hc hd hf] at hmem
            simp [warnEffects] at hmem
        · rw [runLoader_gate env ctx source hv hc hd] at hmem
          simp at hmem
      · rw [runLoader_configError env ctx source hv (by simpa using hc)] at hmem
        simp at hmem
    · rw [runLoader_schemaError env ctx source (by simpa using hv)] at hmem
      simp at hmem
  refine ⟨main, ?_⟩
  intro hbad f c hmem
  obtain ⟨h1, h2, h3, _⟩ := main f c hmem
  rcases hbad with hb | hb | hb
  · rw [h1] at hb
    cases hb
  · rw [h2] at hb
    cases hb
  · exact hb h3

/-- Concrete environment for C5: the emit produced a matching entry and
an extern fragment for it. -/
def envC5w : Env :=
  ⟨true, [], [], [("a.js", "CODE")], [("a.ts", "EXTTXT")], id,
    fun s => "fixed " ++ s⟩

/-- Concrete context for C5. -/
def ctxC5w : LoaderCTX := ⟨"a.ts", ⟨none, none⟩⟩

/-- Witness for C5: the append observed on the concrete run carries the
fixed extern fragment of the selected file, and the run passed every
upstream stage. -/
theorem extern_append_guarded_witness :
    validateOptions ctxC5w.options = true ∧ envC5w.configOk = true ∧
    envC5w.preEmitDiagnostics = [] ∧
    resolvedExternFile ctxC5w.options = resolvedExternFile ctxC5w.options ∧
    ∃ kv, selectOutput (tsToJS (normalizePath ctxC5w.resourcePath)) envC5w.jsFiles =
        some kv ∧
      ∃ e, List.lookup (jsToTS kv.1) envC5w.externs = some e ∧
        envC5w.fixExternText "EXTTXT" = envC5w.fixExternText e :=
  (extern_append_guarded envC5w ctxC5w "x").1 (resolvedExternFile ctxC5w.options)
    (envC5w.fixExternText "EXTTXT") (by decide)

end TsickleLoader
